import Mathlib

/-!
Shallow embedding of the DarkTodo application core (src/src/App.tsx).

The data model, the persistence helpers and the state-store operations are
translated from the source; the browser environment (localStorage and the
JSON builtins) is modelled explicitly, since the source only calls into it.
-/

namespace DarkTodo

/-- A task item (App.tsx lines 3-8): `interface Todo`. -/
structure Todo where
  id : String
  text : String
  completed : Bool
  createdAt : String
deriving DecidableEq, Repr

/-- The view filter (App.tsx line 10): `type Filter = 'all' | 'active' | 'completed'`. -/
inductive Filter where
  | all
  | active
  | completed
deriving DecidableEq, Repr

/-- Model of the string stored under the `darktodo_todos` key, at the
granularity the source observes through the browser JSON builtins:
`value l` stands for the string `JSON.stringify` produced for the list `l`
(so `JSON.parse` recovers `l`), and `corrupt` stands for any other stored
string on which `JSON.parse` throws (or the empty string, which the source
treats like an absent entry). -/
inductive StoredTodos where
  | value (todos : List Todo)
  | corrupt
deriving DecidableEq, Repr

/-- Model of the per-origin localStorage as the source uses it: one entry per
fixed key (`darktodo_todos`, `darktodo_darkmode`), each either absent
(`Option.none`) or present. `Except.error ()` models a read of that entry
throwing, which the source catches (App.tsx lines 20-27, 39-46). -/
structure Storage where
  todosEntry : Except Unit (Option StoredTodos)
  darkEntry : Except Unit (Option String)
deriving Repr

/-- App.tsx lines 19-28, `loadTodos`: absent entry (`!raw`) gives `[]`;
a parse failure is caught and gives `[]`; otherwise the parsed list. -/
def loadTodos (σ : Storage) : List Todo :=
  match σ.todosEntry with
  | .error _ => []
  | .ok none => []
  | .ok (some .corrupt) => []
  | .ok (some (.value l)) => l

/-- App.tsx lines 30-36, `saveTodos`: writes `JSON.stringify(todos)` under the
todos key (the successful-write path; a throwing write is caught and leaves
the entry unchanged, which no claim here depends on). -/
def saveTodos (todos : List Todo) (σ : Storage) : Storage :=
  { σ with todosEntry := .ok (some (.value todos)) }

/-- App.tsx lines 38-47, `loadDarkMode`: absent entry defaults to `true`
(dark); a throwing read is caught and also yields `true`; otherwise the
stored string is compared with the literal text `true`. -/
def loadDarkMode (σ : Storage) : Bool :=
  match σ.darkEntry with
  | .error _ => true
  | .ok none => true
  | .ok (some raw) => raw == "true"

/-- App.tsx lines 49-55, `saveDarkMode`: writes `String(darkMode)`, i.e. the
literal text `true` or `false`, under the dark-mode key. -/
def saveDarkMode (darkMode : Bool) (σ : Storage) : Storage :=
  { σ with darkEntry := .ok (some (if darkMode then "true" else "false")) }

/-- Model of the JavaScript `String.prototype.trim` builtin the source calls:
removes leading and trailing whitespace characters. -/
def jsTrim (s : String) : String :=
  ⟨((s.data.dropWhile Char.isWhitespace).reverse.dropWhile Char.isWhitespace).reverse⟩

/-- App.tsx lines 71-82, `addTodo`: trims the input; an empty trimmed text
(falsy `!text`) is a no-op; otherwise a new item with the fresh id, the
trimmed text, `completed := false` and the current timestamp is appended at
the end. The id from `crypto.randomUUID()` and the timestamp from
`new Date().toISOString()` enter as parameters. -/
def addTodo (inputValue freshId now : String) (todos : List Todo) : List Todo :=
  let text := jsTrim inputValue
  if text == "" then todos
  else todos ++ [{ id := freshId, text := text, completed := false, createdAt := now }]

/-- App.tsx lines 84-90, `toggleTodo`: maps over the list, flipping
`completed` on the item whose id matches. -/
def toggleTodo (id : String) (todos : List Todo) : List Todo :=
  todos.map (fun todo => if todo.id == id then { todo with completed := !todo.completed } else todo)

/-- App.tsx lines 92-94, `deleteTodo`: keeps the items whose id differs. -/
def deleteTodo (id : String) (todos : List Todo) : List Todo :=
  todos.filter (fun todo => todo.id != id)

/-- App.tsx lines 96-98, `clearCompleted`: keeps the items not completed. -/
def clearCompleted (todos : List Todo) : List Todo :=
  todos.filter (fun todo => !todo.completed)

/-- App.tsx lines 104-108, `filteredTodos`: the if-chain on the filter. -/
def filteredTodos (filter : Filter) (todos : List Todo) : List Todo :=
  todos.filter (fun todo =>
    match filter with
    | .active => !todo.completed
    | .completed => todo.completed
    | .all => true)

/-- App.tsx line 110: `activeCount`. -/
def activeCount (todos : List Todo) : Nat :=
  (todos.filter (fun todo => !todo.completed)).length

/-- App.tsx line 111: `completedCount`. -/
def completedCount (todos : List Todo) : Nat :=
  (todos.filter (fun todo => todo.completed)).length

/-- The component state of `App` (App.tsx lines 58-61). -/
structure AppState where
  todos : List Todo
  darkMode : Bool
  filter : Filter
  inputValue : String
deriving Repr

/-- App.tsx lines 334-354: the footer is rendered exactly when the unfiltered
`todos` list is non-empty; it shows `activeCount` and, exactly when
`completedCount > 0`, the Clear Completed button. The result records what is
rendered: `none` for no footer, otherwise the shown count and whether the
clear-completed button is present. -/
def renderFooter (s : AppState) : Option (Nat × Bool) :=
  if s.todos.length > 0 then
    some (activeCount s.todos, decide (completedCount s.todos > 0))
  else
    none

/-- One user-level `addTask` call: the typed input together with the fresh id
and the timestamp the environment supplies for it. -/
structure AddCall where
  inputValue : String
  freshId : String
  now : String

/-- A sequence of `addTask` calls applied in order. -/
def addTodoSeq (calls : List AddCall) (todos : List Todo) : List Todo :=
  calls.foldl (fun acc c => addTodo c.inputValue c.freshId c.now acc) todos

/-- Modelled from the spec: the spec formula for `filteredTasks`,
"tasks where (filter==all) or (filter==active and !completed) or
(filter==completed and completed)", transcribed word for word, to be
compared with the source-derived `filteredTodos`. -/
def specFilteredTasks (filter : Filter) (tasks : List Todo) : List Todo :=
  tasks.filter (fun t =>
    decide (filter = Filter.all ∨ (filter = Filter.active ∧ t.completed = false)
      ∨ (filter = Filter.completed ∧ t.completed = true)))

/-! ## Theorems -/

/-- C8: in every state, `activeCount` plus `completedCount` equals the total
number of tasks (proved for every task list, hence for every reachable
state). -/
theorem counts_partition (todos : List Todo) :
    activeCount todos + completedCount todos = todos.length := by
  induction todos with
  | nil => rfl
  | cons t ts ih =>
    simp only [activeCount, completedCount, List.filter_cons] at *
    cases h : t.completed <;> simp [h] <;> omega

/-- C6: `clearCompleted` removes every completed item and keeps all others
(membership characterisation), and it is idempotent. -/
theorem clearCompleted_spec (todos : List Todo) :
    clearCompleted (clearCompleted todos) = clearCompleted todos ∧
    ∀ t : Todo, t ∈ clearCompleted todos ↔ (t ∈ todos ∧ t.completed = false) := by
  constructor
  · simp only [clearCompleted]
    apply List.filter_eq_self.mpr
    intro t ht
    exact (List.mem_filter.mp ht).2
  · intro t
    simp [clearCompleted, List.mem_filter, Bool.not_eq_true']

/-- C3: saving the task list and the theme flag and then loading them back
from the resulting storage (a fresh in-memory store reading it on reload)
returns exactly the list and flag that were saved. -/
theorem save_load_roundtrip (todos : List Todo) (darkMode : Bool) (σ : Storage) :
    loadTodos (saveDarkMode darkMode (saveTodos todos σ)) = todos ∧
    loadDarkMode (saveDarkMode darkMode (saveTodos todos σ)) = darkMode := by
  refine ⟨rfl, ?_⟩
  cases darkMode <;> rfl

/-- C2: an absent, unreadable or unparseable todos entry loads as the empty
list, and an absent or unreadable theme entry loads as dark (`true`). -/
theorem load_defaults :
    (∀ σ : Storage, σ.todosEntry = .ok none → loadTodos σ = []) ∧
    (∀ σ : Storage, σ.todosEntry = .ok (some .corrupt) → loadTodos σ = []) ∧
    (∀ σ : Storage, σ.todosEntry = .error () → loadTodos σ = []) ∧
    (∀ σ : Storage, σ.darkEntry = .ok none → loadDarkMode σ = true) ∧
    (∀ σ : Storage, σ.darkEntry = .error () → loadDarkMode σ = true) := by
  refine ⟨?_, ?_, ?_, ?_, ?_⟩ <;> intro σ h <;> simp [loadTodos, loadDarkMode, h]

/-- Witness for C2: the defaults at concrete stores. -/
theorem load_defaults_witness :
    loadTodos { todosEntry := .ok none, darkEntry := .ok none } = [] ∧
    loadTodos { todosEntry := .ok (some .corrupt), darkEntry := .ok none } = [] ∧
    loadDarkMode { todosEntry := .ok none, darkEntry := .ok none } = true :=
  ⟨load_defaults.1 _ rfl, load_defaults.2.1 _ rfl, load_defaults.2.2.2.1 _ rfl⟩

/-- Helper for C1: the length of the list after a sequence of `addTask`
calls is the starting length plus the number of non-blank calls. -/
theorem addTodoSeq_length (calls : List AddCall) (todos : List Todo) :
    (addTodoSeq calls todos).length =
      todos.length + (calls.filter (fun c => !(jsTrim c.inputValue == ""))).length := by
  induction calls generalizing todos with
  | nil => simp [addTodoSeq]
  | cons c cs ih =>
    simp only [addTodoSeq, List.foldl_cons] at *
    rw [ih]
    cases h : (jsTrim c.inputValue == "") <;> simp [addTodo, h, List.filter_cons]
    omega

/-- C1: `addTask` trims its input; a blank input is a no-op, a non-blank
input appends exactly one item with `completed = false` at the end; hence
for every call sequence starting from the empty list the final length is the
number of non-blank calls. -/
theorem addTodo_correct :
    (∀ (inputValue freshId now : String) (todos : List Todo),
      (jsTrim inputValue = "" → addTodo inputValue freshId now todos = todos) ∧
      (jsTrim inputValue ≠ "" →
        addTodo inputValue freshId now todos =
          todos ++ [{ id := freshId, text := jsTrim inputValue, completed := false,
                      createdAt := now }])) ∧
    (∀ calls : List AddCall,
      (addTodoSeq calls []).length
        = (calls.filter (fun c => !(jsTrim c.inputValue == ""))).length) := by
  constructor
  · intro inputValue freshId now todos
    constructor <;> intro h <;> simp [addTodo, h]
  · intro calls
    simpa using addTodoSeq_length calls []

/-- Witness for C1: a padded non-blank input appends its trimmed text, and a
blank input is a no-op. -/
theorem addTodo_correct_witness :
    (jsTrim "  Buy milk  " ≠ "") ∧
    addTodo "  Buy milk  " "id-1" "t1" [] =
      [{ id := "id-1", text := "Buy milk", completed := false, createdAt := "t1" }] ∧
    (jsTrim "   " = "") ∧
    addTodo "   " "id-2" "t2" [] = [] := by
  refine ⟨by decide, ?_, by decide, ?_⟩
  · exact ((addTodo_correct.1 "  Buy milk  " "id-1" "t1" []).2 (by decide)).trans (by decide)
  · exact (addTodo_correct.1 "   " "id-2" "t2" []).1 (by decide)

/-- C4: `toggleTask` is a no-op when no item has the given id; it flips
exactly the `completed` flag of the item whose id matches (index-wise
characterisation); and applying it twice returns the list, hence every
item's `completed` value, to its original state. -/
theorem toggleTodo_spec (todos : List Todo) (id : String) :
    ((∀ t ∈ todos, t.id ≠ id) → toggleTodo id todos = todos) ∧
    (∀ i (h1 : i < todos.length) (h2 : i < (toggleTodo id todos).length),
      ((toggleTodo id todos).get ⟨i, h2⟩).completed =
        (if (todos.get ⟨i, h1⟩).id = id then !(todos.get ⟨i, h1⟩).completed
         else (todos.get ⟨i, h1⟩).completed)) ∧
    toggleTodo id (toggleTodo id todos) = todos := by
  refine ⟨?_, ?_, ?_⟩
  · intro h
    induction todos with
    | nil => rfl
    | cons t ts ih =>
      have hne : (t.id == id) = false :=
        beq_eq_false_iff_ne.mpr (h t (List.mem_cons_self t ts))
      simp only [toggleTodo, List.map_cons] at ih ⊢
      rw [hne]
      simp only [Bool.false_eq_true, if_false, List.cons.injEq]
      exact ⟨trivial, ih (fun u hu => h u (List.mem_cons_of_mem t hu))⟩
  · intro i h1 h2
    simp only [toggleTodo, List.get_eq_getElem, List.getElem_map]
    by_cases hid : todos[i].id = id <;> simp [hid]
  · induction todos with
    | nil => rfl
    | cons t ts ih =>
      simp only [toggleTodo, List.map_cons, List.cons.injEq] at ih ⊢
      refine ⟨?_, ih⟩
      cases t with
      | mk tid ttext tcomp tcreated => cases hb : (tid == id) <;> simp [hb]

/-- Witness for C4: a non-matching id leaves a concrete list unchanged. -/
theorem toggleTodo_spec_witness :
    toggleTodo "zzz" [{ id := "a", text := "x", completed := false, createdAt := "t" }] =
      [{ id := "a", text := "x", completed := false, createdAt := "t" }] :=
  (toggleTodo_spec [{ id := "a", text := "x", completed := false, createdAt := "t" }] "zzz").1
    (by decide)

/-- Helper for C5: deleting an id held by no item is a no-op. -/
theorem deleteTodo_not_mem (todos : List Todo) (id : String)
    (h : ∀ t ∈ todos, t.id ≠ id) : deleteTodo id todos = todos := by
  simp only [deleteTodo]
  apply List.filter_eq_self.mpr
  intro t ht
  simpa [bne_iff_ne] using h t ht

/-- Helper for C5: when the ids are distinct and some item holds the id,
deleting removes exactly one item. -/
theorem deleteTodo_length_of_mem (todos : List Todo) (id : String)
    (hnd : (todos.map Todo.id).Nodup) (hmem : ∃ t ∈ todos, t.id = id) :
    (deleteTodo id todos).length + 1 = todos.length := by
  induction todos with
  | nil => simp at hmem
  | cons t ts ih =>
    simp only [List.map_cons, List.nodup_cons] at hnd
    by_cases hid : t.id = id
    · have hts : ∀ u ∈ ts, u.id ≠ id := by
        intro u hu huid
        exact hnd.1 (by rw [hid, ← huid]; exact List.mem_map_of_mem Todo.id hu)
      have hkeep : deleteTodo id ts = ts := deleteTodo_not_mem ts id hts
      have hbne : (t.id != id) = false := by simp [bne, hid]
      simp only [deleteTodo, List.filter_cons, hbne, Bool.false_eq_true, if_false] at hkeep ⊢
      rw [hkeep]
      simp
    · have hbne : (t.id != id) = true := by simp [bne_iff_ne, hid]
      have hmem2 : ∃ u ∈ ts, u.id = id := by
        rcases hmem with ⟨u, hu, huid⟩
        rcases List.mem_cons.mp hu with rfl | hu2
        · exact absurd huid hid
        · exact ⟨u, hu2, huid⟩
      have := ih hnd.2 hmem2
      simp only [deleteTodo, List.filter_cons, hbne, if_true] at this ⊢
      simp only [List.length_cons]
      omega

/-- C5: on a list with distinct ids (the data model guarantees unique ids),
`deleteTask` removes exactly one item when the id is present, none when it
is absent, and the length never drops by more than one. -/
theorem deleteTodo_spec (todos : List Todo) (id : String)
    (hnd : (todos.map Todo.id).Nodup) :
    ((∃ t ∈ todos, t.id = id) → (deleteTodo id todos).length + 1 = todos.length) ∧
    ((∀ t ∈ todos, t.id ≠ id) → deleteTodo id todos = todos) ∧
    (deleteTodo id todos).length ≤ todos.length ∧
    todos.length ≤ (deleteTodo id todos).length + 1 := by
  refine ⟨deleteTodo_length_of_mem todos id hnd, deleteTodo_not_mem todos id, ?_, ?_⟩
  · exact List.length_filter_le _ _
  · by_cases hmem : ∃ t ∈ todos, t.id = id
    · have := deleteTodo_length_of_mem todos id hnd hmem
      omega
    · push_neg at hmem
      rw [deleteTodo_not_mem todos id hmem]
      omega

/-- Witness for C5: deleting the present id from a concrete two-element list
with distinct ids removes exactly one item. -/
theorem deleteTodo_spec_witness :
    (deleteTodo "a" [{ id := "a", text := "x", completed := false, createdAt := "t" },
                     { id := "b", text := "y", completed := true, createdAt := "u" }]).length + 1
      = 2 :=
  (deleteTodo_spec
      [{ id := "a", text := "x", completed := false, createdAt := "t" },
       { id := "b", text := "y", completed := true, createdAt := "u" }] "a"
      (by decide)).1 (by decide)

/-- C10: `toggleTask` preserves the list length and every item's position;
at every index the id, text and creation time are unchanged, and `completed`
changes exactly on the item whose id matches. -/
theorem toggleTodo_frame (todos : List Todo) (id : String) :
    (toggleTodo id todos).length = todos.length ∧
    ∀ i (h1 : i < todos.length) (h2 : i < (toggleTodo id todos).length),
      ((toggleTodo id todos).get ⟨i, h2⟩).id = (todos.get ⟨i, h1⟩).id ∧
      ((toggleTodo id todos).get ⟨i, h2⟩).text = (todos.get ⟨i, h1⟩).text ∧
      ((toggleTodo id todos).get ⟨i, h2⟩).createdAt = (todos.get ⟨i, h1⟩).createdAt ∧
      ((toggleTodo id todos).get ⟨i, h2⟩).completed =
        (if (todos.get ⟨i, h1⟩).id = id then !(todos.get ⟨i, h1⟩).completed
         else (todos.get ⟨i, h1⟩).completed) := by
  constructor
  · simp [toggleTodo]
  · intro i h1 h2
    simp only [toggleTodo, List.get_eq_getElem, List.getElem_map]
    by_cases hid : todos[i].id = id <;> simp [hid]

/-- Witness for C10 at a one-element list and index 0: the flag flips and the
other fields survive. -/
theorem toggleTodo_frame_witness :
    ((toggleTodo "a" [{ id := "a", text := "x", completed := false, createdAt := "t" }]).get
        ⟨0, by decide⟩).text = "x" ∧
    ((toggleTodo "a" [{ id := "a", text := "x", completed := false, createdAt := "t" }]).get
        ⟨0, by decide⟩).completed = true := by
  have h := (toggleTodo_frame
      [{ id := "a", text := "x", completed := false, createdAt := "t" }] "a").2
      0 (by decide) (by decide)
  exact ⟨h.2.1.trans (by decide), h.2.2.2.trans (by decide)⟩

/-- C7: the source filter agrees with the spec formula for every filter and
list (order preserved, being a single `filter` pass), and the concrete
"Buy milk" scenario behaves as specified. -/
theorem filteredTodos_spec :
    (∀ (f : Filter) (todos : List Todo), filteredTodos f todos = specFilteredTasks f todos) ∧
    ((filteredTodos .all (addTodo "Buy milk" "id-1" "t1" [])).map Todo.text = ["Buy milk"] ∧
     (filteredTodos .completed (addTodo "Buy milk" "id-1" "t1" [])).length = 0 ∧
     (filteredTodos .active (toggleTodo "id-1" (addTodo "Buy milk" "id-1" "t1" []))).length = 0 ∧
     (filteredTodos .completed
        (toggleTodo "id-1" (addTodo "Buy milk" "id-1" "t1" []))).length = 1) := by
  constructor
  · intro f todos
    simp only [filteredTodos, specFilteredTasks]
    cases f <;>
      exact List.filter_congr (fun t _ => by
        cases t with
        | mk tid ttext tcomp tcreated => cases tcomp <;> rfl)
  · refine ⟨by decide, by decide, by decide, by decide⟩

/-- C9: the footer is rendered iff the unfiltered list is non-empty,
independently of the active filter; it shows `activeCount`, and the
clear-completed action is visible iff some item is completed. -/
theorem renderFooter_spec (s : AppState) :
    ((renderFooter s).isSome ↔ s.todos ≠ []) ∧
    (∀ f : Filter, renderFooter { s with filter := f } = renderFooter s) ∧
    (∀ (shown : Nat) (clearVisible : Bool), renderFooter s = some (shown, clearVisible) →
      shown = activeCount s.todos ∧
      (clearVisible = true ↔ ∃ t ∈ s.todos, t.completed = true)) := by
  refine ⟨?_, fun f => rfl, ?_⟩
  · by_cases h : s.todos = []
    · simp [renderFooter, h]
    · simp [renderFooter, h, List.length_pos.mpr h]
  · intro shown clearVisible h
    by_cases hlen : s.todos.length > 0
    · simp only [renderFooter, if_pos hlen, Option.some.injEq, Prod.mk.injEq] at h
      refine ⟨h.1.symm, ?_⟩
      rw [← h.2]
      simp only [decide_eq_true_eq, completedCount, gt_iff_lt,
        ← List.countP_eq_length_filter]
      exact List.countP_pos_iff
    · simp [renderFooter, hlen] at h

/-- Witness for C9: a singleton completed list renders a footer with zero
items left and a visible clear-completed action. -/
theorem renderFooter_spec_witness :
    (0 : Nat) = activeCount [{ id := "a", text := "x", completed := true, createdAt := "t" }] ∧
    (true = true ↔ ∃ t ∈ [({ id := "a", text := "x", completed := true, createdAt := "t" } :
        Todo)], t.completed = true) :=
  (renderFooter_spec
      ⟨[{ id := "a", text := "x", completed := true, createdAt := "t" }],
        true, Filter.all, ""⟩).2.2 0 true (by decide)

end DarkTodo
